import Mathlib

/-!
Shallow embedding of the conversation-store backend
(`chatkit_server/postgres_store.py`, `chatkit_server/chatkit_server.py`,
`middleware/rate_limit.py`, and the SQLAlchemy models `models/thread.py`,
`models/message.py`).

Timestamps are modelled as natural numbers (`datetime.utcnow()` / SQL
`now()` become an explicit `now : Nat` argument); rate-limiter times are
integer seconds.  A database transaction that raises is modelled by a
`fault : Bool` argument on each public store operation: the `try/except`
wrapper of every operation either swallows the failure (reads) or
re-raises it (writes), exactly as in the source.
-/

namespace ChatkitSpec

/-- Python truthiness of an optional string (`if user_id:` is false for
`None` and for the empty string). -/
def strTruthy : Option String → Bool
  | none => false
  | some s => !(s == "")

/-- Drop leading and trailing whitespace from a character list. -/
def stripChars (cs : List Char) : List Char :=
  ((cs.dropWhile Char.isWhitespace).reverse.dropWhile Char.isWhitespace).reverse

/-- Python `s.strip()` (whitespace as recognised by `Char.isWhitespace`). -/
def pyStrip (s : String) : String := String.mk (stripChars s.toList)

/-- Python `len(s)`: number of codepoints. -/
def pyLen (s : String) : Nat := s.toList.length

/-- Python `s[:n]`: the first `n` codepoints. -/
def pyTake (s : String) (n : Nat) : String := String.mk (s.toList.take n)

/-- Lookup in a JSON-object-like association list (`dict.get(key)`). -/
def lookupStr (d : List (String × String)) (key : String) : Option String :=
  (d.find? (fun p => p.1 == key)).map (fun p => p.2)

/-- `d[key] = value` on an association list: replace the first binding of
`key`, or append one. -/
def setKey (d : List (String × String)) (key value : String) : List (String × String) :=
  if (d.find? (fun p => p.1 == key)).isSome then
    d.map (fun p => if p.1 == key then (p.1, value) else p)
  else
    d ++ [(key, value)]

/-- Digit run accepted by Python `int()`: nonempty, digits with single
underscores strictly between digits. -/
def validDigitRun : List Char → Bool
  | [] => false
  | [c] => c.isDigit
  | c :: c2 :: rest =>
    c.isDigit && (validDigitRun (c2 :: rest) || (c2 == '_' && validDigitRun rest))

/-- Numeric value of a digit run, ignoring underscores. -/
def digitRunVal (cs : List Char) : Nat :=
  (cs.filter (fun c => c != '_')).foldl (fun a c => a * 10 + (c.toNat - 48)) 0

/-- Model of Python `int(s)` on a string: optional surrounding whitespace,
optional single sign, then a digit run (underscores allowed between
digits).  Returns `none` where Python raises `ValueError`. -/
def pyInt? (s : String) : Option Int :=
  let cs := stripChars s.toList
  match cs with
  | '-' :: rest => if validDigitRun rest then some (-(digitRunVal rest : Int)) else none
  | '+' :: rest => if validDigitRun rest then some (digitRunVal rest : Int) else none
  | rest => if validDigitRun rest then some (digitRunVal rest : Int) else none

/-- Row of the `messages` table (`models/message.py`). -/
structure Message where
  message_id : String
  thread_id : String
  role : String
  content : String
  sequence_number : Nat
  created_at : Nat
deriving Repr, DecidableEq

/-- Row of the `threads` table (`models/thread.py`).  `title` is nullable;
`thread_metadata` is the JSON `metadata` column as an association list. -/
structure Thread where
  thread_id : String
  user_id : String
  title : Option String
  thread_metadata : List (String × String)
  created_at : Nat
  updated_at : Nat
deriving Repr, DecidableEq

/-- Database state: the two tables. -/
structure DB where
  threads : List Thread
  messages : List Message
deriving Repr, DecidableEq

/-- `chatkit.types.ThreadMetadata` as produced/consumed by the store
(fields actually used: `id`, `created_at`, `metadata`). -/
structure ThreadMetadata where
  id : String
  created_at : Nat
  metadata : List (String × String)
deriving Repr, DecidableEq

/-- Thread items passed into the store: the two message shapes
(`UserMessageItem` / `AssistantMessageItem`), each with an id and the
text of its content blocks. -/
inductive ThreadItem where
  | userMessage (id : String) (blocks : List String)
  | assistantMessage (id : String) (blocks : List String)
deriving Repr, DecidableEq

/-- The item id (`item.id`). -/
def ThreadItem.itemId : ThreadItem → String
  | .userMessage i _ => i
  | .assistantMessage i _ => i

/-- The content blocks of the item (`item.content`, one string per
textual block). -/
def ThreadItem.blocks : ThreadItem → List String
  | .userMessage _ b => b
  | .assistantMessage _ b => b

/-- Role extraction by instance check (`isinstance(item, AssistantMessageItem)`
then `isinstance(item, UserMessageItem)`). -/
def roleOf : ThreadItem → String
  | .userMessage _ _ => "user"
  | .assistantMessage _ _ => "assistant"

/-- Thread items reconstructed from rows by `load_thread_items`/`load_item`. -/
inductive ThreadItemOut where
  | user (id : String) (thread_id : String) (created_at : Nat) (text : String)
  | assistant (id : String) (thread_id : String) (created_at : Nat) (text : String)
deriving Repr, DecidableEq

/-- `Page(items=…, next_cursor=…)` as returned by `load_threads`. -/
structure ThreadPage where
  items : List ThreadMetadata
  next_cursor : Option String
deriving Repr, DecidableEq

/-- `Page(data=…, has_more=…, after=…)` as returned by `load_thread_items`. -/
structure ItemPage where
  data : List ThreadItemOut
  has_more : Bool
  after : Option String
deriving Repr, DecidableEq

/-- Failures surfaced by store operations. -/
inductive StoreError where
  | storageError
  | permissionError
  | valueError
deriving Repr, DecidableEq

/-- Ordering relation used to model `ORDER BY sequence_number ASC`. -/
def msgLe (a b : Message) : Prop := a.sequence_number ≤ b.sequence_number

instance : DecidableRel msgLe := fun a b =>
  inferInstanceAs (Decidable (a.sequence_number ≤ b.sequence_number))

instance : IsTotal Message msgLe := ⟨fun a b => Nat.le_total a.sequence_number b.sequence_number⟩

instance : IsTrans Message msgLe := ⟨fun _ _ _ h1 h2 => Nat.le_trans h1 h2⟩

/-- Ordering relation used to model `ORDER BY sequence_number DESC`. -/
def msgGe (a b : Message) : Prop := b.sequence_number ≤ a.sequence_number

instance : DecidableRel msgGe := fun a b =>
  inferInstanceAs (Decidable (b.sequence_number ≤ a.sequence_number))

/-- Strict sequence-number order (used in proofs: with distinct sequence
numbers the sorted row order is unique). -/
def msgLt (a b : Message) : Prop := a.sequence_number < b.sequence_number

instance : DecidableRel msgLt := fun a b =>
  inferInstanceAs (Decidable (a.sequence_number < b.sequence_number))

instance : IsAntisymm Message msgLt :=
  ⟨fun _ _ h1 h2 => absurd h1 (Nat.lt_asymm h2)⟩

/-- `ORDER BY sequence_number ASC` on a result set. -/
def sortMsgsAsc (l : List Message) : List Message := l.insertionSort msgLe

/-- `ORDER BY sequence_number DESC` on a result set. -/
def sortMsgsDesc (l : List Message) : List Message := l.insertionSort msgGe

/-- Ordering relation modelling `ORDER BY updated_at ASC` on threads. -/
def thrLe (a b : Thread) : Prop := a.updated_at ≤ b.updated_at

instance : DecidableRel thrLe := fun a b =>
  inferInstanceAs (Decidable (a.updated_at ≤ b.updated_at))

/-- Ordering relation modelling `ORDER BY updated_at DESC` on threads. -/
def thrGe (a b : Thread) : Prop := b.updated_at ≤ a.updated_at

instance : DecidableRel thrGe := fun a b =>
  inferInstanceAs (Decidable (b.updated_at ≤ a.updated_at))

/-- `ORDER BY updated_at ASC`. -/
def sortThreadsAsc (l : List Thread) : List Thread := l.insertionSort thrLe

/-- `ORDER BY updated_at DESC`. -/
def sortThreadsDesc (l : List Thread) : List Thread := l.insertionSort thrGe

/-- Python falsiness of the nullable `title` column (`not thread.title`). -/
def titleFalsy : Option String → Bool
  | none => true
  | some s => s == ""

/-- `load_thread`: point lookup with optional ownership filter
(`if user_id: query = query.where(Thread.user_id == user_id)`). -/
def load_thread_core (db : DB) (thread_id : String) (user_id : Option String) :
    Option ThreadMetadata :=
  match db.threads.find? (fun t => t.thread_id == thread_id &&
      (if strTruthy user_id then t.user_id == user_id.getD "" else true)) with
  | none => none
  | some t => some { id := t.thread_id, created_at := t.created_at, metadata := t.thread_metadata }

/-- Public `load_thread`: a storage exception is caught and turned into
`None`. -/
def load_thread (db : DB) (thread_id : String) (user_id : Option String) (fault : Bool) :
    Option ThreadMetadata :=
  if fault then none else load_thread_core db thread_id user_id

/-- `save_thread`: update metadata of an existing row (refreshing
`updated_at`), or insert a new row after resolving the owning user from
the metadata or the request context. -/
def save_thread_core (db : DB) (thread : ThreadMetadata)
    (context : Option (List (String × String))) (now : Nat) : Except StoreError DB :=
  if (db.threads.find? (fun t => t.thread_id == thread.id)).isSome then
    .ok { db with threads := db.threads.map (fun t =>
      if t.thread_id == thread.id then
        { t with thread_metadata := thread.metadata, updated_at := now }
      else t) }
  else
    let uid0 := lookupStr thread.metadata "user_id"
    let uid := if !strTruthy uid0 then
        (match context with
         | some ctx => if ctx.isEmpty then uid0 else lookupStr ctx "user_id"
         | none => uid0)
      else uid0
    if !strTruthy uid then .error .valueError
    else
      let md := setKey thread.metadata "user_id" (uid.getD "")
      .ok { db with threads := db.threads ++ [{
        thread_id := thread.id,
        user_id := uid.getD "",
        title := lookupStr md "title",
        thread_metadata := md,
        created_at := thread.created_at,
        updated_at := now }] }

/-- Public `save_thread`: a storage exception is logged and re-raised. -/
def save_thread (db : DB) (thread : ThreadMetadata)
    (context : Option (List (String × String))) (now : Nat) (fault : Bool) :
    Except StoreError DB :=
  if fault then .error .storageError else save_thread_core db thread context now

/-- The `DELETE FROM threads WHERE thread_id = …` statement; messages go
with the thread via the `ON DELETE CASCADE` foreign key. -/
def applyDeleteThread (db : DB) (thread_id : String) : DB :=
  { threads := db.threads.filter (fun t => !(t.thread_id == thread_id)),
    messages := db.messages.filter (fun m => !(m.thread_id == thread_id)) }

/-- `delete_thread`: when a (truthy) owner is supplied, first verify
ownership and raise `PermissionError` otherwise; then delete. -/
def delete_thread_core (db : DB) (thread_id : String) (user_id : Option String) :
    Except StoreError DB :=
  if strTruthy user_id then
    if (db.threads.find? (fun t => t.thread_id == thread_id &&
        t.user_id == user_id.getD "")).isSome then
      .ok (applyDeleteThread db thread_id)
    else .error .permissionError
  else .ok (applyDeleteThread db thread_id)

/-- Public `delete_thread`: `PermissionError` and storage exceptions are
both re-raised. -/
def delete_thread (db : DB) (thread_id : String) (user_id : Option String) (fault : Bool) :
    Except StoreError DB :=
  if fault then .error .storageError else delete_thread_core db thread_id user_id

/-- `load_threads`: user-scoped listing ordered by `updated_at`, with an
optional thread-id cursor resolved to its `updated_at` (the cursor lookup
ignores the user filter); an unresolvable cursor skips the filter. -/
def thread_cursor_ts (db : DB) (after : Option String) : Option Nat :=
  if strTruthy after then
    (db.threads.find? (fun t => t.thread_id == after.getD "")).map (fun t => t.updated_at)
  else none

/-- Body of `load_threads` after cursor resolution. -/
def load_threads_core (db : DB) (user_id : Option String) (limit : Nat)
    (after : Option String) (order : String)
    (context : Option (List (String × String))) : ThreadPage :=
  let uid := match user_id, context with
    | none, some ctx => lookupStr ctx "user_id"
    | _, _ => user_id
  if !strTruthy uid then { items := [], next_cursor := none }
  else
    let afterTs : Option Nat := thread_cursor_ts db after
    let keep : Thread → Bool := fun t =>
      t.user_id == uid.getD "" &&
      (match afterTs with
       | some ts => if order == "desc" then decide (t.updated_at < ts) else decide (ts < t.updated_at)
       | none => true)
    let sorted := if order == "desc" then sortThreadsDesc (db.threads.filter keep)
                  else sortThreadsAsc (db.threads.filter keep)
    let rows := sorted.take (limit + 1)
    let has_more := decide (limit < rows.length)
    let rows := if has_more then rows.take limit else rows
    { items := rows.map (fun t =>
        { id := t.thread_id, created_at := t.created_at, metadata := t.thread_metadata }),
      next_cursor := if has_more then (rows.getLast?).map (fun t => t.thread_id) else none }

/-- Public `load_threads`: a storage exception degrades to an empty page. -/
def load_threads (db : DB) (user_id : Option String) (limit : Nat)
    (after : Option String) (order : String)
    (context : Option (List (String × String))) (fault : Bool) : ThreadPage :=
  if fault then { items := [], next_cursor := none }
  else load_threads_core db user_id limit after order context

/-- `SELECT sequence_number … ORDER BY sequence_number DESC LIMIT 1`:
the greatest stored sequence number of the thread, if any. -/
def last_sequence (db : DB) (thread_id : String) : Option Nat :=
  ((db.messages.filter (fun m => m.thread_id == thread_id)).map
    (fun m => m.sequence_number)).max?

/-- `next_seq = (last_seq + 1) if last_seq else 1` — note the Python
falsiness: a stored `0` (never produced by this code) would restart at 1. -/
def next_seq_of : Option Nat → Nat
  | none => 1
  | some s => if s == 0 then 1 else s + 1

/-- Concatenated text of the item's content blocks. -/
def joinedBlocks (item : ThreadItem) : String := String.join item.blocks

/-- Stand-in for Python `str(raw_content)` on a nonempty list of content
blocks; only reached as a last-resort fallback, and no claim depends on
its exact text. -/
def pyStrOfBlocks (blocks : List String) : String := toString blocks

/-- Content extraction of `add_thread_item`: joined block text, else
`str(raw_content)` when the block list is truthy, else the literal
fallback. -/
def extracted_content_add (item : ThreadItem) : String :=
  let j := joinedBlocks item
  if j == "" then
    (if item.blocks.isEmpty then "Attribute content missing" else pyStrOfBlocks item.blocks)
  else j

/-- Content extraction of `save_item` (same shape, different fallback
literal). -/
def extracted_content_save (item : ThreadItem) : String :=
  let j := joinedBlocks item
  if j == "" then
    (if item.blocks.isEmpty then "No content" else pyStrOfBlocks item.blocks)
  else j

/-- Replacement of the Agents-SDK placeholder id `"__fake_id__"` by a
freshly generated uuid (the fresh uuid is passed in explicitly). -/
def final_item_id (item : ThreadItem) (freshId : String) : String :=
  if item.itemId == "__fake_id__" then freshId else item.itemId

/-- Auto-generated title: the first 50 characters, `strip()`ped, with
`"..."` appended when the content is longer than 50 characters. -/
def derived_title (content : String) : String :=
  let t := pyStrip (pyTake content 50)
  if 50 < pyLen content then t ++ "..." else t

/-- `add_thread_item`: strict insert at the next sequence number; on a
first user message, a thread whose `title` is NULL/empty gets the derived
title (the thread-row update also refreshes `updated_at` via the ORM
`onupdate=func.now()` of that column). -/
def add_thread_item_core (db : DB) (thread_id : String) (item : ThreadItem)
    (freshId : String) (now : Nat) : DB :=
  let next_seq := next_seq_of (last_sequence db thread_id)
  let role := roleOf item
  let content := extracted_content_add item
  let message : Message := {
    message_id := final_item_id item freshId,
    thread_id := thread_id,
    role := role,
    content := content,
    sequence_number := next_seq,
    created_at := now }
  let db1 : DB := { db with messages := db.messages ++ [message] }
  if next_seq == 1 && role == "user" then
    { db1 with threads := db1.threads.map (fun t =>
        if t.thread_id == thread_id && titleFalsy t.title then
          { t with title := some (derived_title content), updated_at := now }
        else t) }
  else db1

/-- Public `add_thread_item`: a storage exception is logged and
re-raised. -/
def add_thread_item (db : DB) (thread_id : String) (item : ThreadItem)
    (freshId : String) (now : Nat) (fault : Bool) : Except StoreError DB :=
  if fault then .error .storageError
  else .ok (add_thread_item_core db thread_id item freshId now)

/-- Cursor resolution of `load_thread_items`: a cursor that parses as an
integer is a sequence number; otherwise it is looked up as a message id
(with no thread filter) and resolved to that row's sequence number. -/
def cursor_seq (db : DB) (after : String) : Option Int :=
  match pyInt? after with
  | some n => some n
  | none =>
    (db.messages.find? (fun m => m.message_id == after)).map
      (fun m => (m.sequence_number : Int))

/-- The pagination `WHERE` clause: applied only when the resolved cursor
is truthy (`if after_seq:` — an integer 0 skips the filter). -/
def seq_filter (order : String) (afterSeq : Option Int) (m : Message) : Bool :=
  match afterSeq with
  | some s =>
    if s != 0 then
      (if order == "asc" then decide (s < (m.sequence_number : Int))
       else decide ((m.sequence_number : Int) < s))
    else true
  | none => true

/-- Row-to-item conversion: only `user` and `assistant` rows become
items; any other role is skipped. -/
def convertMessage (m : Message) : Option ThreadItemOut :=
  if m.role == "user" then some (.user m.message_id m.thread_id m.created_at m.content)
  else if m.role == "assistant" then
    some (.assistant m.message_id m.thread_id m.created_at m.content)
  else none

/-- Post-processing of the (sorted, `LIMIT limit+1`) result set of
`load_thread_items`: over-fetch detection, truncation, conversion, and
the next-page cursor (the last returned row's message id). -/
def itemsPageOf (sorted : List Message) (limit : Nat) : ItemPage :=
  let msgs := sorted.take (limit + 1)
  let has_more := decide (limit < msgs.length)
  let msgs := if has_more then msgs.take limit else msgs
  { data := msgs.filterMap convertMessage,
    has_more := has_more,
    after := if has_more then (msgs.getLast?).map (fun m => m.message_id) else none }

/-- `load_thread_items`: thread-scoped, sequence-ordered, cursor-paginated
listing. -/
def load_thread_items_core (db : DB) (thread_id : String) (limit : Nat)
    (after : Option String) (order : String) : ItemPage :=
  let afterSeq := if strTruthy after then cursor_seq db (after.getD "") else none
  let rows := db.messages.filter
    (fun m => m.thread_id == thread_id && seq_filter order afterSeq m)
  itemsPageOf (if order == "asc" then sortMsgsAsc rows else sortMsgsDesc rows) limit

/-- Public `load_thread_items`: a storage exception degrades to
`Page(data=[], has_more=False)`. -/
def load_thread_items (db : DB) (thread_id : String) (limit : Nat)
    (after : Option String) (order : String) (fault : Bool) : ItemPage :=
  if fault then { data := [], has_more := false, after := none }
  else load_thread_items_core db thread_id limit after order

/-- The UPDATE branch of `save_item`, applied to the row matching
`(thread_id, message_id)` (unique by primary key): content and role are
replaced in place, identifier and sequence number untouched. -/
def save_item_update (thread_id fid content role : String) (m : Message) : Message :=
  if m.thread_id == thread_id && m.message_id == fid then
    { m with content := content, role := role }
  else m

/-- `save_item`: upsert — update the existing row in place, else insert
at the next sequence number.  Note: the insert branch performs no title
derivation. -/
def save_item_core (db : DB) (thread_id : String) (item : ThreadItem)
    (freshId : String) (now : Nat) : DB :=
  let role := roleOf item
  let content := extracted_content_save item
  let fid := final_item_id item freshId
  if (db.messages.find? (fun m => m.thread_id == thread_id && m.message_id == fid)).isSome then
    { db with messages := db.messages.map (save_item_update thread_id fid content role) }
  else
    let next_seq := next_seq_of (last_sequence db thread_id)
    { db with messages := db.messages ++ [{
        message_id := fid,
        thread_id := thread_id,
        role := role,
        content := content,
        sequence_number := next_seq,
        created_at := now }] }

/-- Public `save_item`: a storage exception is logged and re-raised. -/
def save_item (db : DB) (thread_id : String) (item : ThreadItem)
    (freshId : String) (now : Nat) (fault : Bool) : Except StoreError DB :=
  if fault then .error .storageError
  else .ok (save_item_core db thread_id item freshId now)

/-- `load_item`: point lookup, converted like `load_thread_items` rows. -/
def load_item_core (db : DB) (thread_id item_id : String) : Option ThreadItemOut :=
  match db.messages.find? (fun m => m.thread_id == thread_id && m.message_id == item_id) with
  | none => none
  | some m => convertMessage m

/-- Public `load_item`: a storage exception is caught and turned into
`None`. -/
def load_item (db : DB) (thread_id item_id : String) (fault : Bool) : Option ThreadItemOut :=
  if fault then none else load_item_core db thread_id item_id

/-- `delete_thread_item`: point delete. -/
def delete_thread_item_core (db : DB) (thread_id item_id : String) : DB :=
  { db with
    messages := db.messages.filter
      (fun m => !(m.thread_id == thread_id && m.message_id == item_id)) }

/-- Public `delete_thread_item`: a storage exception is logged and
re-raised. -/
def delete_thread_item (db : DB) (thread_id item_id : String) (fault : Bool) :
    Except StoreError DB :=
  if fault then .error .storageError
  else .ok (delete_thread_item_core db thread_id item_id)

/-- Events the orchestrator's validation prefix can emit; everything the
downstream agent streaming produces is opaque here. -/
inductive RespondEvent where
  | errorEvent (message : String) (allow_retry : Bool)
  | agentEvent (payload : String)
deriving Repr, DecidableEq

/-- Text extraction of `respond`: concatenate the `text` of the input's
content blocks. -/
def extract_message_content (blocks : List String) : String := String.join blocks

/-- The validation prefix of `RoboticsChatbotServer.respond`
(`chatkit_server.py`): reject a missing input, an empty/whitespace-only
extracted text, or a text longer than 100000 characters, each with a
single non-retryable error event and without touching the store; on
success hand over to the downstream agent pipeline `k` (history load,
agent run, streaming — opaque to the claims settled here). -/
def respond (input : Option (List String))
    (k : DB → List RespondEvent × DB) (db : DB) : List RespondEvent × DB :=
  match input with
  | none => ([RespondEvent.errorEvent "No message received" false], db)
  | some blocks =>
    let message_content := extract_message_content blocks
    if message_content == "" || pyStrip message_content == "" then
      ([RespondEvent.errorEvent "Message content cannot be empty" false], db)
    else if 100000 < pyLen message_content then
      ([RespondEvent.errorEvent
          "Message content exceeds maximum length of 100,000 characters" false], db)
    else k db

/-- Rate-limiter configuration (`middleware/rate_limit.py`). -/
def RATE_LIMIT_REQUESTS : Nat := 60

/-- Window length in seconds (`timedelta(minutes=1)`); times are modelled
as integer seconds. -/
def RATE_LIMIT_WINDOW : Int := 60

/-- Outcome of one rate-limit check: pass, or HTTP 429 with the
`Retry-After` value. -/
inductive RateResult where
  | allow
  | reject (retry_after : Int)
deriving Repr, DecidableEq

/-- One execution of `rate_limit_middleware` for a user whose store entry
is `st` (`none` models a missing key; the `defaultdict` then yields
`(0, now)`).  Returns the updated entry and the outcome.  Note the store
is updated before the 429 is raised, exactly as in the source. -/
def rate_limit_check (st : Option (Nat × Int)) (now : Int) :
    Option (Nat × Int) × RateResult :=
  let p := st.getD (0, now)
  let request_count := p.1
  let window_start := p.2
  if RATE_LIMIT_WINDOW ≤ now - window_start then
    (some (1, now), RateResult.allow)
  else
    let request_count := request_count + 1
    if RATE_LIMIT_REQUESTS < request_count then
      (some (request_count, window_start),
        RateResult.reject (window_start + RATE_LIMIT_WINDOW - now))
    else (some (request_count, window_start), RateResult.allow)

/-- Run a sequence of requests (given by their arrival times) through the
middleware, collecting each outcome. -/
def runRequests (st : Option (Nat × Int)) : List Int → Option (Nat × Int) × List RateResult
  | [] => (st, [])
  | t :: ts =>
    let r := rate_limit_check st t
    let rest := runRequests r.1 ts
    (rest.1, r.2 :: rest.2)

/-- Driver for the pagination claim: repeatedly call `load_thread_items`
in ascending order, following the returned cursor while `has_more` holds
(fuel-bounded recursion). -/
def collectPages (db : DB) (thread_id : String) (limit : Nat) :
    Nat → Option String → List ThreadItemOut
  | 0, _ => []
  | fuel + 1, after =>
    let p := load_thread_items db thread_id limit after "asc" false
    if p.has_more then p.data ++ collectPages db thread_id limit fuel p.after
    else p.data

/-- Fold of successful `add_thread_item` calls (item, fresh uuid, time). -/
def append_all (db : DB) (thread_id : String) (calls : List (ThreadItem × String × Nat)) : DB :=
  calls.foldl (fun d c => add_thread_item_core d thread_id c.1 c.2.1 c.2.2) db

/-- The stored rows of one thread (`WHERE thread_id = …`), in table
order. -/
def threadMsgs (db : DB) (tid : String) : List Message :=
  db.messages.filter (fun m => m.thread_id == tid)

/-! ### Concrete fixtures used by closed theorems and witnesses -/

/-- A titled thread owned by `userA`. -/
def tFix : Thread :=
  { thread_id := "t1", user_id := "userA", title := some "Robotics",
    thread_metadata := [], created_at := 50, updated_at := 100 }

/-- An untitled thread owned by `userA`. -/
def tUntitled : Thread :=
  { thread_id := "t1", user_id := "userA", title := none,
    thread_metadata := [], created_at := 5, updated_at := 5 }

/-- One stored user message at sequence 1. -/
def m1Fix : Message :=
  { message_id := "aaa1", thread_id := "t1", role := "user",
    content := "hello", sequence_number := 1, created_at := 60 }

/-- Fixture: a titled thread with one message. -/
def dbOneMsg : DB := { threads := [tFix], messages := [m1Fix] }

/-- Fixture: an untitled thread with no messages. -/
def dbEmptyThread : DB := { threads := [tUntitled], messages := [] }

/-- Three stored messages with UUID-like (non-numeric) ids, sequences
1..3, listed out of order. -/
def msgs3 : List Message :=
  [ { message_id := "idc", thread_id := "t1", role := "user",
      content := "c3", sequence_number := 3, created_at := 3 },
    { message_id := "ida", thread_id := "t1", role := "user",
      content := "c1", sequence_number := 1, created_at := 1 },
    { message_id := "idb", thread_id := "t1", role := "assistant",
      content := "c2", sequence_number := 2, created_at := 2 } ]

/-- Fixture: a thread with three messages. -/
def dbThreeMsgs : DB := { threads := [tFix], messages := msgs3 }

/-- A 54-character content whose 50-character prefix ends in a space. -/
def contentPad : String := String.mk (List.replicate 49 'a' ++ (' ' :: "tail".toList))

end ChatkitSpec

namespace ChatkitSpec

/-! ### Claim theorems -/

/-- Claim C7: every store read operation (`load_thread`, `load_threads`,
`load_thread_items`, `load_item`) converts a storage-layer exception into
an empty or not-found result, while every store write operation
(`save_thread`, `add_thread_item`, `save_item`, `delete_thread`,
`delete_thread_item`) re-raises it to the caller. -/
theorem c7_error_policy (db : DB) (tid iid : String) (uid : Option String) (limit : Nat)
    (after : Option String) (order : String) (item : ThreadItem) (fid : String) (now : Nat)
    (thr : ThreadMetadata) (ctx : Option (List (String × String))) :
    load_thread db tid uid true = none ∧
    load_threads db uid limit after order ctx true = { items := [], next_cursor := none } ∧
    load_thread_items db tid limit after order true
      = { data := [], has_more := false, after := none } ∧
    load_item db tid iid true = none ∧
    save_thread db thr ctx now true = Except.error StoreError.storageError ∧
    add_thread_item db tid item fid now true = Except.error StoreError.storageError ∧
    save_item db tid item fid now true = Except.error StoreError.storageError ∧
    delete_thread db tid uid true = Except.error StoreError.storageError ∧
    delete_thread_item db tid iid true = Except.error StoreError.storageError :=
  ⟨rfl, rfl, rfl, rfl, rfl, rfl, rfl, rfl, rfl⟩

/-- Claim C8 (code-bug evidence): a message write is a mutation of the
thread's conversation, but `add_thread_item` (here: appending a second,
assistant message at time 200) leaves the thread row — `updated_at`
included — unchanged at 100; the same holds for the `save_item` insert
branch.  Only `save_thread` (metadata update) refreshes `updated_at`. -/
theorem c8_message_write_does_not_refresh_updated_at :
    (add_thread_item_core dbOneMsg "t1" (ThreadItem.assistantMessage "bbb2" ["reply"])
        "fresh" 200).threads = [tFix]
  ∧ tFix.updated_at = 100
  ∧ (add_thread_item_core dbOneMsg "t1" (ThreadItem.assistantMessage "bbb2" ["reply"])
        "fresh" 200).messages.length = 2
  ∧ (save_item_core dbOneMsg "t1" (ThreadItem.assistantMessage "bbb2" ["reply"])
        "fresh" 200).threads = [tFix]
  ∧ save_thread_core dbOneMsg { id := "t1", created_at := 50, metadata := [] } none 200
      = Except.ok { threads := [{ tFix with updated_at := 200 }], messages := [m1Fix] } :=
  ⟨rfl, rfl, rfl, rfl, rfl⟩

/-- Claim C10: a `load_threads` cursor that matches no stored thread id is
silently ignored — the call returns the same (first) page as a call with
no cursor at all. -/
theorem c10_unknown_cursor_returns_first_page (db : DB) (uid : Option String) (limit : Nat)
    (a : String) (order : String) (ctx : Option (List (String × String)))
    (h : db.threads.find? (fun t => t.thread_id == a) = none) :
    load_threads db uid limit (some a) order ctx false
      = load_threads db uid limit none order ctx false := by
  show load_threads_core db uid limit (some a) order ctx
      = load_threads_core db uid limit none order ctx
  have h2 : thread_cursor_ts db (some a) = thread_cursor_ts db none := by
    unfold thread_cursor_ts
    by_cases ha : a = ""
    · simp [strTruthy, ha]
    · simp [strTruthy, ha, h]
  unfold load_threads_core
  rw [h2]

/-- Witness for C10 at a concrete store and cursor. -/
theorem c10_witness :
    (dbOneMsg.threads.find? (fun t => t.thread_id == "nope") = none) ∧
    load_threads dbOneMsg (some "userA") 20 (some "nope") "desc" none false
      = load_threads dbOneMsg (some "userA") 20 none "desc" none false :=
  ⟨by decide,
   c10_unknown_cursor_returns_first_page dbOneMsg (some "userA") 20 "nope" "desc" none
     (by decide)⟩

/-- Helper: `load_thread` returns not-found when no row passes its
filter. -/
theorem load_thread_core_eq_none (db : DB) (tid : String) (uid : Option String)
    (h : db.threads.find? (fun t => t.thread_id == tid &&
        (if strTruthy uid then t.user_id == uid.getD "" else true)) = none) :
    load_thread_core db tid uid = none := by
  unfold load_thread_core
  rw [h]

/-- Helper: `delete_thread` raises `PermissionError` when the ownership
check finds no row. -/
theorem delete_thread_core_denied (db : DB) (tid : String) (uid : Option String)
    (htr : strTruthy uid = true)
    (h : db.threads.find? (fun t => t.thread_id == tid && t.user_id == uid.getD "") = none) :
    delete_thread_core db tid uid = Except.error StoreError.permissionError := by
  simp [delete_thread_core, htr, h]

/-- Claim C4: for a thread owned by `t.user_id`, a different (nonempty)
user `B` gets `None` from `load_thread` — the same answer as for a thread
that does not exist at all — and `delete_thread` as `B` fails with
`PermissionError` (returning no new state: thread and messages stay as
they were). -/
theorem c4_ownership_isolation (db : DB) (tid : String) (t : Thread) (B : String)
    (ht : t ∈ db.threads) (hid : t.thread_id = tid)
    (hnodup : (db.threads.map (fun x => x.thread_id)).Nodup)
    (hAB : B ≠ t.user_id) (hB : B ≠ "") :
    load_thread db tid (some B) false = none ∧
    (∀ tid2, (∀ u ∈ db.threads, u.thread_id ≠ tid2) →
      load_thread db tid2 (some B) false = none) ∧
    delete_thread db tid (some B) false = Except.error StoreError.permissionError := by
  have hsB : strTruthy (some B) = true := by simp [strTruthy, hB]
  have hkey : ∀ x ∈ db.threads, ¬(x.thread_id == tid && x.user_id == B) = true := by
    intro x hx hxx
    simp only [Bool.and_eq_true, beq_iff_eq] at hxx
    have hxt : x = t := List.inj_on_of_nodup_map hnodup hx ht (by rw [hxx.1, hid])
    exact hAB (by rw [← hxx.2, hxt])
  refine ⟨?_, ?_, ?_⟩
  · show load_thread_core db tid (some B) = none
    apply load_thread_core_eq_none
    rw [List.find?_eq_none]
    intro x hx
    simpa [hsB] using hkey x hx
  · intro tid2 hmiss
    show load_thread_core db tid2 (some B) = none
    apply load_thread_core_eq_none
    rw [List.find?_eq_none]
    intro x hx
    simp [hmiss x hx]
  · show delete_thread_core db tid (some B) = Except.error StoreError.permissionError
    apply delete_thread_core_denied db tid (some B) hsB
    rw [List.find?_eq_none]
    intro x hx
    simpa using hkey x hx

/-- Witness for C4 at a concrete store: `userB` on `userA`'s thread. -/
theorem c4_witness :
    (tFix ∈ dbOneMsg.threads ∧ tFix.thread_id = "t1" ∧
     (dbOneMsg.threads.map (fun x => x.thread_id)).Nodup ∧
     "userB" ≠ tFix.user_id ∧ "userB" ≠ "") ∧
    (load_thread dbOneMsg "t1" (some "userB") false = none ∧
     (∀ tid2, (∀ u ∈ dbOneMsg.threads, u.thread_id ≠ tid2) →
       load_thread dbOneMsg tid2 (some "userB") false = none) ∧
     delete_thread dbOneMsg "t1" (some "userB") false
       = Except.error StoreError.permissionError) :=
  ⟨⟨by decide, by decide, by decide, by decide, by decide⟩,
   c4_ownership_isolation dbOneMsg "t1" tFix "userB" (by decide) (by decide) (by decide)
     (by decide) (by decide)⟩

/-- Claim C6: when the extracted message text is missing, empty,
whitespace-only, or longer than 100000 characters, `respond` emits
exactly one error event, with `allow_retry = False`, terminates, and
leaves the store untouched (the downstream pipeline `k` is never
reached). -/
theorem c6_input_validation (input : Option (List String))
    (k : DB → List RespondEvent × DB) (db : DB)
    (h : input = none ∨ ∃ blocks, input = some blocks ∧
      (pyStrip (extract_message_content blocks) = "" ∨
        100000 < pyLen (extract_message_content blocks))) :
    (respond input k db).2 = db ∧
    ∃ msg, (respond input k db).1 = [RespondEvent.errorEvent msg false] := by
  rcases h with h | ⟨blocks, hb, hv⟩
  · subst h
    exact ⟨rfl, _, rfl⟩
  · subst hb
    by_cases h1 : (extract_message_content blocks == ""
        || pyStrip (extract_message_content blocks) == "") = true
    · simp [respond, h1]
    · have h2 : 100000 < pyLen (extract_message_content blocks) := by
        rcases hv with hv | hv
        · exact absurd (by simp [hv]) h1
        · exact hv
      simp [respond, h1, h2]

/-- Witness for C6: a whitespace-only message. -/
theorem c6_witness :
    ((some [" "] : Option (List String)) = none ∨ ∃ blocks,
      (some [" "] : Option (List String)) = some blocks ∧
      (pyStrip (extract_message_content blocks) = "" ∨
        100000 < pyLen (extract_message_content blocks))) ∧
    ((respond (some [" "]) (fun d => ([], d)) dbOneMsg).2 = dbOneMsg ∧
     ∃ msg, (respond (some [" "]) (fun d => ([], d)) dbOneMsg).1
        = [RespondEvent.errorEvent msg false]) :=
  ⟨Or.inr ⟨[" "], rfl, Or.inl (by decide)⟩,
   c6_input_validation (some [" "]) (fun d => ([], d)) dbOneMsg
     (Or.inr ⟨[" "], rfl, Or.inl (by decide)⟩)⟩

/-- Helper: while the window is open and the count stays within the
threshold, every request passes and only the count advances. -/
theorem runRequests_allow (t1 : Int) :
    ∀ (ts : List Int) (c : Nat), (∀ t ∈ ts, t1 ≤ t ∧ t - t1 < 60) → c + ts.length ≤ 60 →
    runRequests (some (c, t1)) ts
      = (some (c + ts.length, t1), List.replicate ts.length RateResult.allow)
  | [], c, _, _ => by simp [runRequests]
  | t :: ts, c, hin, hle => by
    obtain ⟨h1, h2⟩ := hin t (List.mem_cons_self t ts)
    have hlen : c + ts.length + 1 ≤ 60 := by
      simpa [Nat.add_assoc] using hle
    have hc : rate_limit_check (some (c, t1)) t = (some (c + 1, t1), RateResult.allow) := by
      simp only [rate_limit_check, RATE_LIMIT_WINDOW, RATE_LIMIT_REQUESTS, Option.getD_some]
      rw [if_neg (by omega), if_neg (by omega)]
    have ih := runRequests_allow t1 ts (c + 1)
      (fun x hx => hin x (List.mem_cons_of_mem t hx)) (by omega)
    simp only [runRequests, hc, ih, List.length_cons, List.replicate_succ]
    have : c + 1 + ts.length = c + (ts.length + 1) := by omega
    rw [this]

/-- Claim C9: from an empty rate-limiter entry, 60 requests inside one
1-minute window all pass; the 61st inside the window is rejected with a
`Retry-After` of the remaining window time (positive and at most 60
seconds); the first request at or after the window boundary passes and
resets the entry to `(1, now)`. -/
theorem c9_fixed_window (t1 : Int) (rest : List Int) (t61 t62 : Int)
    (hlen : rest.length = 59)
    (hin : ∀ t ∈ rest, t1 ≤ t ∧ t - t1 < 60)
    (h61a : t1 ≤ t61) (h61b : t61 - t1 < 60) (h62 : 60 ≤ t62 - t1) :
    runRequests none (t1 :: rest) = (some (60, t1), List.replicate 60 RateResult.allow) ∧
    rate_limit_check (some (60, t1)) t61
      = (some (61, t1), RateResult.reject (t1 + 60 - t61)) ∧
    0 < t1 + 60 - t61 ∧ t1 + 60 - t61 ≤ 60 ∧
    rate_limit_check (some (61, t1)) t62 = (some (1, t62), RateResult.allow) := by
  refine ⟨?_, ?_, by omega, by omega, ?_⟩
  · have hfirst : rate_limit_check none t1 = (some (1, t1), RateResult.allow) := by
      simp only [rate_limit_check, RATE_LIMIT_WINDOW, RATE_LIMIT_REQUESTS, Option.getD_none]
      rw [if_neg (by omega), if_neg (by omega)]
    have htail := runRequests_allow t1 rest 1 hin (by omega)
    simp only [runRequests, hfirst, htail, hlen]
    rfl
  · simp only [rate_limit_check, RATE_LIMIT_WINDOW, RATE_LIMIT_REQUESTS, Option.getD_some]
    rw [if_neg (by omega), if_pos (by omega)]
  · simp only [rate_limit_check, RATE_LIMIT_WINDOW, RATE_LIMIT_REQUESTS, Option.getD_some]
    rw [if_pos (by omega)]

/-- Witness for C9: 60 requests at time 0, a 61st at time 30 (rejected,
retry-after 30), a reset request at time 60. -/
theorem c9_witness :
    ((List.replicate 59 (0 : Int)).length = 59 ∧
     (∀ t ∈ List.replicate 59 (0 : Int), (0 : Int) ≤ t ∧ t - 0 < 60) ∧
     (0 : Int) ≤ 30 ∧ (30 : Int) - 0 < 60 ∧ (60 : Int) ≤ 60 - 0) ∧
    (runRequests none ((0 : Int) :: List.replicate 59 0)
        = (some (60, 0), List.replicate 60 RateResult.allow) ∧
     rate_limit_check (some (60, 0)) 30 = (some (61, 0), RateResult.reject (0 + 60 - 30)) ∧
     0 < (0 : Int) + 60 - 30 ∧ (0 : Int) + 60 - 30 ≤ 60 ∧
     rate_limit_check (some (61, 0)) 60 = (some (1, 60), RateResult.allow)) :=
  ⟨⟨by decide, by decide, by decide, by decide, by decide⟩,
   c9_fixed_window 0 (List.replicate 59 0) 30 60 (by decide) (by decide) (by decide)
     (by decide) (by decide)⟩

/-- Helper: folding `max` over a run of consecutive numbers above the
start value yields the last one. -/
theorem foldl_max_range (n : Nat) : ∀ (a : Nat),
    List.foldl max a (List.range' (a + 1) n) = a + n := by
  induction n with
  | zero => intro a; simp
  | succ n ih =>
    intro a
    rw [List.range'_succ]
    simp only [List.foldl_cons]
    rw [Nat.max_eq_right (Nat.le_succ a), ih (a + 1)]
    omega

/-- Helper: the greatest element of `1..k`. -/
theorem max?_range_one (k : Nat) :
    (List.range' 1 k).max? = if k = 0 then none else some k := by
  cases k with
  | zero => rfl
  | succ j =>
    rw [List.range'_succ]
    show some (List.foldl max 1 (List.range' 2 j)) = _
    rw [foldl_max_range j 1]
    simp [Nat.add_comm]

/-- Helper: `add_thread_item` always appends exactly one row to the
messages table (the title branch only touches the threads table). -/
theorem add_thread_item_core_messages (db : DB) (tid : String) (item : ThreadItem)
    (f : String) (now : Nat) :
    (add_thread_item_core db tid item f now).messages
      = db.messages ++ [{
          message_id := final_item_id item f,
          thread_id := tid,
          role := roleOf item,
          content := extracted_content_add item,
          sequence_number := next_seq_of (last_sequence db tid),
          created_at := now }] := by
  unfold add_thread_item_core
  dsimp only
  split <;> rfl

/-- Helper: after `k` appends onto a thread whose stored sequence numbers
are exactly `1..k`, they are exactly `1..k+len`. -/
theorem append_all_seqs (tid : String) :
    ∀ (calls : List (ThreadItem × String × Nat)) (db : DB) (k : Nat),
    ((threadMsgs db tid).map (fun m => m.sequence_number) = List.range' 1 k) →
    ((threadMsgs (append_all db tid calls) tid).map (fun m => m.sequence_number)
      = List.range' 1 (k + calls.length))
  | [], db, k, h => by simpa [append_all] using h
  | c :: cs, db, k, h => by
    have hlast : last_sequence db tid = (List.range' 1 k).max? := by
      rw [last_sequence, threadMsgs] at *
      rw [h]
    have hnext : next_seq_of (last_sequence db tid) = k + 1 := by
      rw [hlast, max?_range_one]
      cases k with
      | zero => rfl
      | succ j => simp [next_seq_of]
    have hrange : List.range' 1 (k + 1) = List.range' 1 k ++ [k + 1] := by
      rw [List.range'_concat]
      norm_num [Nat.add_comm]
    have hstep : (threadMsgs (add_thread_item_core db tid c.1 c.2.1 c.2.2) tid).map
        (fun m => m.sequence_number) = List.range' 1 (k + 1) := by
      rw [threadMsgs] at h ⊢
      rw [add_thread_item_core_messages, List.filter_append, List.map_append, h, hrange]
      simp [hnext]
    have := append_all_seqs tid cs (add_thread_item_core db tid c.1 c.2.1 c.2.2) (k + 1) hstep
    rw [show append_all db tid (c :: cs)
        = append_all (add_thread_item_core db tid c.1 c.2.1 c.2.2) tid cs from rfl]
    rw [this]
    simp [Nat.add_assoc, Nat.add_comm 1 cs.length]

/-- Claim C1: starting from a thread with no messages, after `N`
successful `add_thread_item` calls the stored sequence numbers of the
thread are exactly `1..N` — gapless and duplicate-free, each append
taking `last_sequence + 1` (`1` on the empty thread). -/
theorem c1_sequence_numbers (db : DB) (tid : String)
    (calls : List (ThreadItem × String × Nat))
    (hempty : threadMsgs db tid = []) :
    (threadMsgs (append_all db tid calls) tid).map (fun m => m.sequence_number)
      = List.range' 1 calls.length ∧
    next_seq_of none = 1 ∧ (∀ s, 1 ≤ s → next_seq_of (some s) = s + 1) := by
  refine ⟨?_, rfl, fun s hs => by
    have hz : (s == 0) = false := by simp; omega
    simp [next_seq_of, hz]⟩
  have h0 : (threadMsgs db tid).map (fun m => m.sequence_number) = List.range' 1 0 := by
    rw [hempty]; rfl
  simpa using append_all_seqs tid calls db 0 h0

/-- Witness for C1: two appends onto an empty thread give sequences 1, 2. -/
theorem c1_witness :
    (threadMsgs dbEmptyThread "t1" = []) ∧
    ((threadMsgs (append_all dbEmptyThread "t1"
        [(ThreadItem.userMessage "m1" ["hello"], "f1", 7),
         (ThreadItem.assistantMessage "m2" ["there"], "f2", 8)]) "t1").map
      (fun m => m.sequence_number) = List.range' 1 2 ∧
     next_seq_of none = 1 ∧ (∀ s, 1 ≤ s → next_seq_of (some s) = s + 1)) :=
  ⟨by decide,
   c1_sequence_numbers dbEmptyThread "t1"
     [(ThreadItem.userMessage "m1" ["hello"], "f1", 7),
      (ThreadItem.assistantMessage "m2" ["there"], "f2", 8)] (by decide)⟩

/-- Helper: in a list whose keys are duplicate-free, searching for the
key of a member finds exactly that member. -/
theorem find?_key_of_nodup {α : Type} (key : α → String) :
    ∀ (l : List α), (l.map key).Nodup → ∀ (a : α), a ∈ l →
    l.find? (fun x => key x == key a) = some a := by
  intro l
  induction l with
  | nil => intro _ a ha; cases ha
  | cons h t ih =>
    intro hnodup a ha
    rw [List.map_cons, List.nodup_cons] at hnodup
    rcases List.mem_cons.mp ha with rfl | hat
    · simp [List.find?_cons]
    · have hne : key h ≠ key a := fun he => hnodup.1 (he ▸ List.mem_map_of_mem key hat)
      have hfalse : (key h == key a) = false := beq_eq_false_iff_ne.mpr hne
      simp only [List.find?_cons, hfalse]
      exact ih hnodup.2 a hat

/-- Helper: `save_item` never touches the threads table (in particular it
performs no title derivation). -/
theorem save_item_core_threads (db : DB) (tid : String) (item : ThreadItem)
    (f : String) (n : Nat) : (save_item_core db tid item f n).threads = db.threads := by
  unfold save_item_core
  dsimp only
  split <;> rfl

/-- Helper: the update branch of `save_item` rewrites the matching row in
place and changes nothing else. -/
theorem save_item_core_of_exists (db : DB) (tid : String) (item : ThreadItem)
    (f : String) (n : Nat)
    (hex : (db.messages.find? (fun m => m.thread_id == tid &&
        m.message_id == final_item_id item f)).isSome = true) :
    save_item_core db tid item f n
      = { threads := db.threads,
          messages := db.messages.map (save_item_update tid (final_item_id item f)
            (extracted_content_save item) (roleOf item)) } := by
  unfold save_item_core
  dsimp only
  rw [if_pos hex]

/-- Helper: the in-place update preserves identity and sequence number. -/
theorem save_item_update_preserves (tid fid c r : String) (m : Message) :
    (save_item_update tid fid c r m).thread_id = m.thread_id ∧
    (save_item_update tid fid c r m).message_id = m.message_id ∧
    (save_item_update tid fid c r m).sequence_number = m.sequence_number := by
  unfold save_item_update
  split <;> exact ⟨rfl, rfl, rfl⟩

/-- Helper: after a `save_item` whose item id is not the placeholder, a
row with that id exists in the thread. -/
theorem save_item_core_mem (db : DB) (tid : String) (item : ThreadItem) (f : String) (n : Nat)
    (hfake : item.itemId ≠ "__fake_id__") :
    ((save_item_core db tid item f n).messages.find?
      (fun m => m.thread_id == tid && m.message_id == item.itemId)).isSome = true := by
  have hfid : final_item_id item f = item.itemId := by
    unfold final_item_id
    rw [if_neg (by simpa using hfake)]
  unfold save_item_core
  dsimp only
  rw [hfid]
  by_cases hex : (db.messages.find? (fun m => m.thread_id == tid &&
      m.message_id == item.itemId)).isSome = true
  · rw [if_pos hex]
    dsimp only
    rw [List.find?_map]
    have hcomp : ((fun m : Message => m.thread_id == tid && m.message_id == item.itemId) ∘
        (save_item_update tid item.itemId (extracted_content_save item) (roleOf item)))
        = (fun m : Message => m.thread_id == tid && m.message_id == item.itemId) := by
      funext m
      show ((save_item_update tid item.itemId (extracted_content_save item) (roleOf item) m).thread_id
          == tid && _ == item.itemId) = _
      unfold save_item_update
      split <;> rfl
    rw [hcomp, Option.isSome_map']
    exact hex
  · rw [if_neg hex]
    dsimp only
    rw [List.find?_append, Option.not_isSome_iff_eq_none.mp hex]
    simp

/-- Claim C2 (amended): calling `save_item` twice with the same
non-placeholder item identifier makes the second call an in-place update
of the row left by the first: the whole second call is exactly a map of
`save_item_update` over the rows — so no second row appears, every row —
the matched one included — keeps its `(message_id, sequence_number)`, and
the matched row ends with the second call's content and role. -/
theorem c2_upsert_no_duplicate (db : DB) (tid : String) (i1 i2 : ThreadItem)
    (f1 f2 : String) (n1 n2 : Nat)
    (hid : i2.itemId = i1.itemId) (hfake : i1.itemId ≠ "__fake_id__") :
    save_item_core (save_item_core db tid i1 f1 n1) tid i2 f2 n2
      = { threads := (save_item_core db tid i1 f1 n1).threads,
          messages := (save_item_core db tid i1 f1 n1).messages.map
            (save_item_update tid i1.itemId (extracted_content_save i2) (roleOf i2)) } ∧
    (save_item_core (save_item_core db tid i1 f1 n1) tid i2 f2 n2).messages.length
      = (save_item_core db tid i1 f1 n1).messages.length ∧
    (save_item_core (save_item_core db tid i1 f1 n1) tid i2 f2 n2).messages.map
        (fun m => (m.message_id, m.sequence_number))
      = (save_item_core db tid i1 f1 n1).messages.map
        (fun m => (m.message_id, m.sequence_number)) := by
  have hfid2 : final_item_id i2 f2 = i1.itemId := by
    unfold final_item_id
    rw [hid, if_neg (by simpa using hfake)]
  have hmem := save_item_core_mem db tid i1 f1 n1 hfake
  have hmain := save_item_core_of_exists (save_item_core db tid i1 f1 n1) tid i2 f2 n2
    (by rw [hfid2]; exact hmem)
  rw [hfid2] at hmain
  refine ⟨hmain, ?_, ?_⟩
  · rw [hmain]
    exact List.length_map _ _
  · rw [hmain]
    show (List.map _ _).map _ = _
    rw [List.map_map]
    apply List.map_congr_left
    intro m _
    show ((save_item_update tid i1.itemId (extracted_content_save i2) (roleOf i2) m).message_id,
      (save_item_update tid i1.itemId (extracted_content_save i2) (roleOf i2) m).sequence_number)
      = (m.message_id, m.sequence_number)
    have hp := save_item_update_preserves tid i1.itemId (extracted_content_save i2) (roleOf i2) m
    rw [hp.2.1, hp.2.2]

/-- Counterexample for C2 as stated: the same item (identifier
`"__fake_id__"`) saved twice produces two rows, because each call
substitutes a fresh uuid for the placeholder id. -/
theorem c2_counterexample_fake_id :
    (save_item_core (save_item_core dbEmptyThread "t1"
        (ThreadItem.userMessage "__fake_id__" ["hi"]) "f1" 1) "t1"
        (ThreadItem.userMessage "__fake_id__" ["hi"]) "f2" 2).messages.length = 2 ∧
    (save_item_core dbEmptyThread "t1"
        (ThreadItem.userMessage "__fake_id__" ["hi"]) "f1" 1).messages.length = 1 := by
  decide

/-- Witness for C2 at concrete items sharing the identifier `"msg1"`. -/
theorem c2_witness :
    ((ThreadItem.userMessage "msg1" ["world"]).itemId
        = (ThreadItem.userMessage "msg1" ["hello"]).itemId ∧
     (ThreadItem.userMessage "msg1" ["hello"]).itemId ≠ "__fake_id__") ∧
    (save_item_core (save_item_core dbEmptyThread "t1"
        (ThreadItem.userMessage "msg1" ["hello"]) "f1" 1) "t1"
        (ThreadItem.userMessage "msg1" ["world"]) "f2" 2
      = { threads := (save_item_core dbEmptyThread "t1"
            (ThreadItem.userMessage "msg1" ["hello"]) "f1" 1).threads,
          messages := (save_item_core dbEmptyThread "t1"
            (ThreadItem.userMessage "msg1" ["hello"]) "f1" 1).messages.map
            (save_item_update "t1" (ThreadItem.userMessage "msg1" ["hello"]).itemId
              (extracted_content_save (ThreadItem.userMessage "msg1" ["world"]))
              (roleOf (ThreadItem.userMessage "msg1" ["world"]))) } ∧
     (save_item_core (save_item_core dbEmptyThread "t1"
        (ThreadItem.userMessage "msg1" ["hello"]) "f1" 1) "t1"
        (ThreadItem.userMessage "msg1" ["world"]) "f2" 2).messages.length
      = (save_item_core dbEmptyThread "t1"
          (ThreadItem.userMessage "msg1" ["hello"]) "f1" 1).messages.length ∧
     (save_item_core (save_item_core dbEmptyThread "t1"
        (ThreadItem.userMessage "msg1" ["hello"]) "f1" 1) "t1"
        (ThreadItem.userMessage "msg1" ["world"]) "f2" 2).messages.map
        (fun m => (m.message_id, m.sequence_number))
      = (save_item_core dbEmptyThread "t1"
          (ThreadItem.userMessage "msg1" ["hello"]) "f1" 1).messages.map
        (fun m => (m.message_id, m.sequence_number))) :=
  ⟨⟨rfl, by decide⟩,
   c2_upsert_no_duplicate dbEmptyThread "t1" (ThreadItem.userMessage "msg1" ["hello"])
     (ThreadItem.userMessage "msg1" ["world"]) "f1" "f2" 1 2 rfl (by decide)⟩

/-- Helper: on a first user message, `add_thread_item` maps the title
update over the threads table. -/
theorem add_thread_item_core_threads_first_user (db : DB) (tid : String) (item : ThreadItem)
    (f : String) (now : Nat) (hempty : threadMsgs db tid = []) (huser : roleOf item = "user") :
    (add_thread_item_core db tid item f now).threads
      = db.threads.map (fun t => if t.thread_id == tid && titleFalsy t.title then
          { t with title := some (derived_title (extracted_content_add item)),
                   updated_at := now }
        else t) := by
  have hseq : next_seq_of (last_sequence db tid) = 1 := by
    rw [threadMsgs] at hempty
    rw [last_sequence, hempty]
    rfl
  unfold add_thread_item_core
  dsimp only
  rw [hseq, huser]
  rfl

/-- Counterexample for C5 as stated: (a) `save_item` inserting a first
user message performs no title derivation at all (the untitled thread
stays untitled); (b) on the append path the stored title is the
`strip()`ped 50-character prefix plus `"..."`, not the raw prefix plus
`"..."` — they differ when the prefix ends in whitespace. -/
theorem c5_counterexample :
    (save_item_core dbEmptyThread "t1"
        (ThreadItem.userMessage "m1" [contentPad]) "f" 10).threads = [tUntitled]
  ∧ (add_thread_item_core dbEmptyThread "t1"
        (ThreadItem.userMessage "m1" [contentPad]) "f" 10).threads
      = [{ tUntitled with title := some (String.mk (List.replicate 49 'a') ++ "..."),
                          updated_at := 10 }]
  ∧ String.mk (List.replicate 49 'a') ++ "..." ≠ pyTake contentPad 50 ++ "..."
  ∧ 50 < pyLen contentPad := by
  refine ⟨rfl, ?_, by decide, by decide⟩
  decide

/-- Claim C5 (amended): on the append path, a first user message into a
thread whose title is NULL or empty sets the title to
`derived_title content` — the `strip()`ped 50-character prefix, with
`"..."` appended exactly when the content exceeds 50 characters — and
also refreshes that row's `updated_at`; a nonempty existing title is
never overwritten; and the upsert path (`save_item`) never performs title
derivation on any branch. -/
theorem c5_title_derivation (db : DB) (tid : String) (item : ThreadItem) (f : String)
    (now : Nat) (t : Thread) (ht : t ∈ db.threads) (hid : t.thread_id = tid)
    (hnodup : (db.threads.map (fun x => x.thread_id)).Nodup)
    (hempty : threadMsgs db tid = [])
    (huser : roleOf item = "user") :
    (titleFalsy t.title = true →
      (add_thread_item_core db tid item f now).threads.find? (fun x => x.thread_id == tid)
        = some { t with title := some (derived_title (extracted_content_add item)),
                        updated_at := now }) ∧
    (titleFalsy t.title = false →
      (add_thread_item_core db tid item f now).threads = db.threads) ∧
    (∀ (db2 : DB) (tid2 : String) (i2 : ThreadItem) (f2 : String) (n2 : Nat),
      (save_item_core db2 tid2 i2 f2 n2).threads = db2.threads) := by
  subst hid
  refine ⟨?_, ?_, fun db2 tid2 i2 f2 n2 => save_item_core_threads db2 tid2 i2 f2 n2⟩
  · intro htf
    rw [add_thread_item_core_threads_first_user db t.thread_id item f now hempty huser]
    rw [List.find?_map]
    have hcomp : ((fun x : Thread => x.thread_id == t.thread_id) ∘
        (fun x : Thread => if x.thread_id == t.thread_id && titleFalsy x.title then
          { x with title := some (derived_title (extracted_content_add item)),
                   updated_at := now }
        else x)) = (fun x : Thread => x.thread_id == t.thread_id) := by
      funext x
      simp only [Function.comp_apply]
      split <;> rfl
    rw [hcomp, find?_key_of_nodup (fun x => x.thread_id) db.threads hnodup t ht]
    simp [htf]
  · intro htf
    rw [add_thread_item_core_threads_first_user db t.thread_id item f now hempty huser]
    have hcong : ∀ x ∈ db.threads,
        (if x.thread_id == t.thread_id && titleFalsy x.title then
          { x with title := some (derived_title (extracted_content_add item)),
                   updated_at := now }
        else x) = id x := by
      intro x hx
      by_cases hxt : (x.thread_id == t.thread_id) = true
      · have hxeq : x = t := List.inj_on_of_nodup_map hnodup hx ht (beq_iff_eq.mp hxt)
        subst hxeq
        simp [htf]
      · simp [hxt]
    rw [List.map_congr_left hcong, List.map_id]

/-- Witness for C5: the padded long content on an untitled thread. -/
theorem c5_witness :
    (tUntitled ∈ dbEmptyThread.threads ∧ tUntitled.thread_id = "t1" ∧
     (dbEmptyThread.threads.map (fun x => x.thread_id)).Nodup ∧
     threadMsgs dbEmptyThread "t1" = [] ∧
     roleOf (ThreadItem.userMessage "m1" [contentPad]) = "user") ∧
    ((titleFalsy tUntitled.title = true →
      (add_thread_item_core dbEmptyThread "t1"
          (ThreadItem.userMessage "m1" [contentPad]) "f" 10).threads.find?
          (fun x => x.thread_id == "t1")
        = some { tUntitled with
            title := some (derived_title
              (extracted_content_add (ThreadItem.userMessage "m1" [contentPad]))),
            updated_at := 10 }) ∧
     (titleFalsy tUntitled.title = false →
      (add_thread_item_core dbEmptyThread "t1"
          (ThreadItem.userMessage "m1" [contentPad]) "f" 10).threads
        = dbEmptyThread.threads) ∧
     (∀ (db2 : DB) (tid2 : String) (i2 : ThreadItem) (f2 : String) (n2 : Nat),
      (save_item_core db2 tid2 i2 f2 n2).threads = db2.threads)) :=
  ⟨⟨by decide, by decide, by decide, by decide, by decide⟩,
   c5_title_derivation dbEmptyThread "t1" (ThreadItem.userMessage "m1" [contentPad]) "f" 10
     tUntitled (by decide) (by decide) (by decide) (by decide) (by decide)⟩

/-- Helper: sorting is a permutation of the result set. -/
theorem sortMsgsAsc_perm (l : List Message) : (sortMsgsAsc l).Perm l :=
  List.perm_insertionSort msgLe l

/-- Helper: the sort really sorts. -/
theorem sortMsgsAsc_sorted (l : List Message) : List.Sorted msgLe (sortMsgsAsc l) :=
  List.sorted_insertionSort msgLe l

/-- Helper: a `≤`-sorted row list with duplicate-free sequence numbers is
strictly increasing. -/
theorem pairwise_lt_of_sorted_nodup (l : List Message)
    (hs : List.Sorted msgLe l)
    (hnodup : (l.map (fun m => m.sequence_number)).Nodup) :
    List.Pairwise msgLt l := by
  have hne : List.Pairwise
      (fun a b : Message => a.sequence_number ≠ b.sequence_number) l :=
    List.pairwise_map.mp hnodup
  exact (List.Pairwise.and hs hne).imp (fun h => Nat.lt_of_le_of_ne h.1 h.2)

/-- Helper: sorted thread rows are strictly increasing in sequence
number (the `(thread_id, sequence_number)` unique constraint). -/
theorem pairwise_lt_sortAsc (l : List Message)
    (hnodup : (l.map (fun m => m.sequence_number)).Nodup) :
    List.Pairwise msgLt (sortMsgsAsc l) := by
  apply pairwise_lt_of_sorted_nodup _ (sortMsgsAsc_sorted l)
  exact (((sortMsgsAsc_perm l).map (fun m => m.sequence_number)).nodup_iff).mpr hnodup

/-- Helper: two permuted, strictly sorted row lists are equal. -/
theorem sorted_strict_unique (l₁ l₂ : List Message) (hp : l₁.Perm l₂)
    (h₁ : List.Pairwise msgLt l₁) (h₂ : List.Pairwise msgLt l₂) : l₁ = l₂ :=
  List.eq_of_perm_of_sorted hp h₁ h₂

/-- Helper: with unique sequence numbers, filtering commutes with the
sort (SQL applies `WHERE` before `ORDER BY`; the model can do either). -/
theorem sortAsc_filter_comm (l : List Message) (p : Message → Bool)
    (hnodup : (l.map (fun m => m.sequence_number)).Nodup) :
    sortMsgsAsc (l.filter p) = (sortMsgsAsc l).filter p := by
  have hsub : ((l.filter p).map (fun m => m.sequence_number)).Nodup :=
    List.Nodup.sublist ((List.filter_sublist l).map (fun m => m.sequence_number)) hnodup
  apply sorted_strict_unique
  · exact (sortMsgsAsc_perm (l.filter p)).trans (List.Perm.filter p (sortMsgsAsc_perm l).symm)
  · exact pairwise_lt_sortAsc _ hsub
  · exact List.Pairwise.filter p (pairwise_lt_sortAsc l hnodup)

/-- Helper: on a strictly increasing row list split after `p0`, keeping
the rows with sequence number above `p0`'s keeps exactly the suffix. -/
theorem filter_gt_last (P Rem : List Message) (p0 : Message)
    (hpw : List.Pairwise msgLt (P ++ Rem)) (hlast : P.getLast? = some p0) :
    (P ++ Rem).filter
      (fun m => decide (p0.sequence_number < m.sequence_number)) = Rem := by
  obtain ⟨P0, rfl⟩ := List.getLast?_eq_some_iff.mp hlast
  have h1 := List.pairwise_append.mp hpw
  rw [List.filter_append]
  have hP : (P0 ++ [p0]).filter
      (fun m => decide (p0.sequence_number < m.sequence_number)) = [] := by
    rw [List.filter_eq_nil_iff]
    intro a ha
    rcases List.mem_append.mp ha with haP | hap0
    · have hlt := (List.pairwise_append.mp h1.1).2.2 a haP p0 (List.mem_singleton.mpr rfl)
      unfold msgLt at hlt
      simp only [decide_eq_true_eq]
      omega
    · rw [List.mem_singleton] at hap0
      subst hap0
      simp
  have hRem : Rem.filter
      (fun m => decide (p0.sequence_number < m.sequence_number)) = Rem := by
    rw [List.filter_eq_self]
    intro b hb
    have hlt := h1.2.2 p0 (List.mem_append.mpr (Or.inr (List.mem_singleton.mpr rfl))) b hb
    unfold msgLt at hlt
    exact decide_eq_true hlt
  rw [hP, hRem, List.nil_append]

/-- Helper: for a positive sequence-number cursor, the pagination filter
in ascending order is a strict lower bound on the sequence number. -/
theorem seq_filter_asc_pos (s : Nat) (hs : 1 ≤ s) (m : Message) :
    seq_filter "asc" (some (s : Int)) m = decide (s < m.sequence_number) := by
  unfold seq_filter
  dsimp only
  have h0 : ((s : Int) != 0) = true := by
    rw [bne_iff_ne]
    omega
  rw [if_pos h0, if_pos (show ("asc" == "asc") = true from rfl), decide_eq_decide]
  exact Int.ofNat_lt

/-- Helper: `load_thread_items` with no cursor pages the whole sorted
thread. -/
theorem page_no_cursor (db : DB) (tid : String) (limit : Nat) :
    load_thread_items_core db tid limit none "asc"
      = itemsPageOf (sortMsgsAsc (threadMsgs db tid)) limit := by
  unfold load_thread_items_core
  dsimp only
  have hfil : db.messages.filter
      (fun m => m.thread_id == tid && seq_filter "asc" none m) = threadMsgs db tid := by
    rw [threadMsgs]
    apply List.filter_congr
    intro m _
    show (m.thread_id == tid && true) = (m.thread_id == tid)
    exact Bool.and_true _
  rw [show (if strTruthy none = true then cursor_seq db ((none : Option String).getD "")
      else none) = (none : Option Int) from rfl]
  rw [if_pos (show ("asc" == "asc") = true from rfl), hfil]

/-- Helper: `load_thread_items` with the cursor at the last row of the
processed prefix pages exactly the remaining suffix. -/
theorem page_with_cursor (db : DB) (tid : String) (limit : Nat)
    (hnodupSeq : ((threadMsgs db tid).map (fun m => m.sequence_number)).Nodup)
    (hpos : ∀ m ∈ threadMsgs db tid, 1 ≤ m.sequence_number)
    (hids : (db.messages.map (fun m => m.message_id)).Nodup)
    (hnoint : ∀ m ∈ threadMsgs db tid, pyInt? m.message_id = none)
    (hne : ∀ m ∈ threadMsgs db tid, m.message_id ≠ "")
    (P Rem : List Message) (p0 : Message)
    (hsplit : sortMsgsAsc (threadMsgs db tid) = P ++ Rem)
    (hlast : P.getLast? = some p0) :
    load_thread_items_core db tid limit (some p0.message_id) "asc"
      = itemsPageOf Rem limit := by
  have hp0S : p0 ∈ sortMsgsAsc (threadMsgs db tid) := by
    rw [hsplit]
    obtain ⟨P0, rfl⟩ := List.getLast?_eq_some_iff.mp hlast
    simp
  have hp0 : p0 ∈ threadMsgs db tid := ((sortMsgsAsc_perm _).mem_iff).mp hp0S
  have hp0db : p0 ∈ db.messages := (List.mem_filter.mp hp0).1
  have htr : strTruthy (some p0.message_id) = true := by
    simp [strTruthy, hne p0 hp0]
  have hcs : cursor_seq db p0.message_id = some ((p0.sequence_number : Nat) : Int) := by
    unfold cursor_seq
    rw [hnoint p0 hp0,
      find?_key_of_nodup (fun m => m.message_id) db.messages hids p0 hp0db]
    rfl
  have hrows : db.messages.filter
      (fun m => m.thread_id == tid &&
        seq_filter "asc" (some ((p0.sequence_number : Nat) : Int)) m)
      = (threadMsgs db tid).filter
          (fun m => decide (p0.sequence_number < m.sequence_number)) := by
    rw [threadMsgs, List.filter_filter]
    apply List.filter_congr
    intro m _
    rw [seq_filter_asc_pos p0.sequence_number (hpos p0 hp0) m]
    exact Bool.and_comm _ _
  have hpw : List.Pairwise msgLt (P ++ Rem) := by
    rw [← hsplit]
    exact pairwise_lt_sortAsc _ hnodupSeq
  unfold load_thread_items_core
  dsimp only [Option.getD]
  rw [htr, if_pos (show (true = true) from rfl), hcs, hrows,
    sortAsc_filter_comm _ _ hnodupSeq, hsplit, filter_gt_last P Rem p0 hpw hlast,
    if_pos (show ("asc" == "asc") = true from rfl)]

/-- Helper: the page shape when the remaining rows fit in one page. -/
theorem itemsPageOf_small (R : List Message) (limit : Nat) (h : R.length ≤ limit) :
    itemsPageOf R limit
      = { data := R.filterMap convertMessage, has_more := false, after := none } := by
  unfold itemsPageOf
  dsimp only
  rw [List.take_of_length_le (Nat.le_succ_of_le h)]
  have hm : decide (limit < R.length) = false := by
    simp
    omega
  rw [hm]
  rfl

/-- Helper: the page shape on over-fetch: `limit` rows, `has_more`, and
the cursor at the last returned row. -/
theorem itemsPageOf_big (R : List Message) (limit : Nat) (h : limit < R.length) :
    itemsPageOf R limit
      = { data := (R.take limit).filterMap convertMessage,
          has_more := true,
          after := ((R.take limit).getLast?).map (fun m => m.message_id) } := by
  unfold itemsPageOf
  dsimp only
  have hlen : (R.take (limit + 1)).length = limit + 1 := by
    rw [List.length_take]
    omega
  have hm : decide (limit < (R.take (limit + 1)).length) = true := by
    rw [hlen]
    simp
  rw [hm]
  have htt : (R.take (limit + 1)).take limit = R.take limit := by
    rw [List.take_take]
    congr 1
    omega
  rw [if_pos rfl, htt]
  rfl

/-- Helper: no page ever holds more than `limit` items. -/
theorem itemsPageOf_data_le (R : List Message) (limit : Nat) :
    (itemsPageOf R limit).data.length ≤ limit := by
  by_cases h : limit < R.length
  · rw [itemsPageOf_big R limit h]
    refine Nat.le_trans (List.length_filterMap_le _ _) ?_
    rw [List.length_take]
    omega
  · rw [itemsPageOf_small R limit (by omega)]
    refine Nat.le_trans (List.length_filterMap_le _ _) ?_
    omega

/-- Helper: a `filterMap` that drops nothing preserves the length. -/
theorem filterMap_length_all_some {α β : Type} (f : α → Option β) :
    ∀ (l : List α), (∀ a ∈ l, (f a).isSome = true) → (l.filterMap f).length = l.length
  | [], _ => rfl
  | a :: l, h => by
    obtain ⟨b, hb⟩ := Option.isSome_iff_exists.mp (h a (List.mem_cons_self a l))
    rw [List.filterMap_cons, hb]
    dsimp only
    rw [List.length_cons, List.length_cons,
      filterMap_length_all_some f l (fun x hx => h x (List.mem_cons_of_mem a hx))]

/-- Helper: following the cursor from any correctly positioned resume
point visits exactly the remaining suffix of the sorted thread. -/
theorem collectPages_go (db : DB) (tid : String) (limit : Nat)
    (hlim : 0 < limit)
    (hnodupSeq : ((threadMsgs db tid).map (fun m => m.sequence_number)).Nodup)
    (hpos : ∀ m ∈ threadMsgs db tid, 1 ≤ m.sequence_number)
    (hids : (db.messages.map (fun m => m.message_id)).Nodup)
    (hnoint : ∀ m ∈ threadMsgs db tid, pyInt? m.message_id = none)
    (hne : ∀ m ∈ threadMsgs db tid, m.message_id ≠ "") :
    ∀ (fuel : Nat) (P Rem : List Message) (after : Option String),
    sortMsgsAsc (threadMsgs db tid) = P ++ Rem →
    Rem.length ≤ fuel →
    ((P = [] ∧ after = none) ∨
      (∃ p0, P.getLast? = some p0 ∧ after = some p0.message_id)) →
    collectPages db tid limit fuel after = Rem.filterMap convertMessage := by
  intro fuel
  induction fuel with
  | zero =>
    intro P Rem after hsplit hfuel hcur
    have hnil : Rem = [] := List.eq_nil_of_length_eq_zero (Nat.le_zero.mp hfuel)
    subst hnil
    rfl
  | succ fuel ih =>
    intro P Rem after hsplit hfuel hcur
    have hpage : load_thread_items db tid limit after "asc" false
        = itemsPageOf Rem limit := by
      show load_thread_items_core db tid limit after "asc" = itemsPageOf Rem limit
      rcases hcur with ⟨hP, hafter⟩ | ⟨p0, hlast, hafter⟩
      · subst hafter
        subst hP
        rw [page_no_cursor, hsplit, List.nil_append]
      · subst hafter
        exact page_with_cursor db tid limit hnodupSeq hpos hids hnoint hne P Rem p0
          hsplit hlast
    rw [collectPages, hpage]
    by_cases hsize : Rem.length ≤ limit
    · rw [itemsPageOf_small Rem limit hsize]
      rfl
    · push_neg at hsize
      rw [itemsPageOf_big Rem limit hsize]
      have htke : (Rem.take limit).length = limit := by
        rw [List.length_take]
        omega
      have hne2 : Rem.take limit ≠ [] := by
        intro hcon
        rw [hcon] at htke
        simp at htke
        omega
      obtain ⟨p0', hlast'⟩ := Option.isSome_iff_exists.mp (List.getLast?_isSome.mpr hne2)
      have hsplit' : sortMsgsAsc (threadMsgs db tid)
          = (P ++ Rem.take limit) ++ Rem.drop limit := by
        rw [List.append_assoc, List.take_append_drop]
        exact hsplit
      have hfuel' : (Rem.drop limit).length ≤ fuel := by
        rw [List.length_drop]
        omega
      have hlastP : (P ++ Rem.take limit).getLast? = some p0' := by
        rw [List.getLast?_append, hlast']
        rfl
      have hrec := ih (P ++ Rem.take limit) (Rem.drop limit) (some p0'.message_id)
        hsplit' hfuel' (Or.inr ⟨p0', hlastP, rfl⟩)
      show (Rem.take limit).filterMap convertMessage
          ++ collectPages db tid limit fuel ((Rem.take limit).getLast?.map
              (fun m => m.message_id))
        = Rem.filterMap convertMessage
      rw [hlast']
      show (Rem.take limit).filterMap convertMessage
          ++ collectPages db tid limit fuel (some p0'.message_id)
        = Rem.filterMap convertMessage
      rw [hrec, ← List.filterMap_append, List.take_append_drop]

/-- Claim C3: with a positive page size and schema-conformant rows
(unique positive sequence numbers, globally unique non-numeric, nonempty
message ids, user/assistant roles), repeatedly calling
`load_thread_items` ascending and following the cursor until `has_more`
is false yields the conversion of every stored message of the thread
exactly once, in strictly increasing sequence-number order, and no page
ever exceeds the requested limit. -/
theorem c3_pagination (db : DB) (tid : String) (limit fuel : Nat)
    (hlim : 0 < limit)
    (hfuel : (threadMsgs db tid).length ≤ fuel)
    (hnodupSeq : ((threadMsgs db tid).map (fun m => m.sequence_number)).Nodup)
    (hpos : ∀ m ∈ threadMsgs db tid, 1 ≤ m.sequence_number)
    (hrole : ∀ m ∈ threadMsgs db tid, m.role = "user" ∨ m.role = "assistant")
    (hids : (db.messages.map (fun m => m.message_id)).Nodup)
    (hnoint : ∀ m ∈ threadMsgs db tid, pyInt? m.message_id = none)
    (hne : ∀ m ∈ threadMsgs db tid, m.message_id ≠ "") :
    collectPages db tid limit fuel none
      = (sortMsgsAsc (threadMsgs db tid)).filterMap convertMessage
    ∧ ((sortMsgsAsc (threadMsgs db tid)).filterMap convertMessage).length
      = (threadMsgs db tid).length
    ∧ List.Pairwise msgLt (sortMsgsAsc (threadMsgs db tid))
    ∧ ∀ (a : Option String),
        (load_thread_items db tid limit a "asc" false).data.length ≤ limit := by
  refine ⟨?_, ?_, pairwise_lt_sortAsc _ hnodupSeq, ?_⟩
  · apply collectPages_go db tid limit hlim hnodupSeq hpos hids hnoint hne fuel []
      (sortMsgsAsc (threadMsgs db tid)) none (List.nil_append _).symm
    · rw [(sortMsgsAsc_perm _).length_eq]
      exact hfuel
    · exact Or.inl ⟨rfl, rfl⟩
  · rw [filterMap_length_all_some]
    · exact (sortMsgsAsc_perm _).length_eq
    · intro m hm
      have hmm : m ∈ threadMsgs db tid := ((sortMsgsAsc_perm _).mem_iff).mp hm
      rcases hrole m hmm with hr | hr <;> simp [convertMessage, hr]
  · intro a
    show (load_thread_items_core db tid limit a "asc").data.length ≤ limit
    show (itemsPageOf _ limit).data.length ≤ limit
    exact itemsPageOf_data_le _ limit

/-- Witness for C3: the three-message thread paged with limit 2. -/
theorem c3_witness :
    (0 < 2 ∧ (threadMsgs dbThreeMsgs "t1").length ≤ 3 ∧
     ((threadMsgs dbThreeMsgs "t1").map (fun m => m.sequence_number)).Nodup ∧
     (∀ m ∈ threadMsgs dbThreeMsgs "t1", 1 ≤ m.sequence_number) ∧
     (∀ m ∈ threadMsgs dbThreeMsgs "t1", m.role = "user" ∨ m.role = "assistant") ∧
     (dbThreeMsgs.messages.map (fun m => m.message_id)).Nodup ∧
     (∀ m ∈ threadMsgs dbThreeMsgs "t1", pyInt? m.message_id = none) ∧
     (∀ m ∈ threadMsgs dbThreeMsgs "t1", m.message_id ≠ "")) ∧
    (collectPages dbThreeMsgs "t1" 2 3 none
      = (sortMsgsAsc (threadMsgs dbThreeMsgs "t1")).filterMap convertMessage
    ∧ ((sortMsgsAsc (threadMsgs dbThreeMsgs "t1")).filterMap convertMessage).length
      = (threadMsgs dbThreeMsgs "t1").length
    ∧ List.Pairwise msgLt (sortMsgsAsc (threadMsgs dbThreeMsgs "t1"))
    ∧ ∀ (a : Option String),
        (load_thread_items dbThreeMsgs "t1" 2 a "asc" false).data.length ≤ 2) :=
  ⟨⟨by decide, by decide, by decide, by decide, by decide, by decide, by decide, by decide⟩,
   c3_pagination dbThreeMsgs "t1" 2 3 (by decide) (by decide) (by decide) (by decide)
     (by decide) (by decide) (by decide) (by decide)⟩

end ChatkitSpec
